import Mathlib

/-!
Shallow embedding of `friggdb/backend/gcs/gcs.go` (package `gcs`), the GCS
block-storage backend adapter.  Go strings are modelled as `List Char`, byte
slices as `List Nat`, and the remote object store as an association list in
which a committed write conses its `(key, value)` pair on the front — so the
list order of any entries added by one call records the temporal order of the
underlying store writes (the most recently written key is at the head).
External collaborators (the GCS client, the local file system, `encoding/json`
for the opaque `backend.BlockMeta` type, `github.com/google/uuid`) are
represented by explicit environment parameters: injectable error outcomes for
each round trip, an abstract marshal/unmarshal pair, and an abstract
identifier-parsing function.
-/

/-- A Go string (or `[]byte` used as a key), modelled as its character list. -/
abbrev GoStr := List Char

namespace gcs

/-- Result of `os.Stat(filename)` as far as `fileExists` can observe it:
success, a not-exist error (`os.IsNotExist(err) == true`), or any other
error (e.g. a permission failure), carrying its message. -/
inductive StatResult where
  | ok : StatResult
  | errNotExist : StatResult
  | errOther (msg : GoStr) : StatResult
deriving DecidableEq, Repr

/-- The predicate `os.IsNotExist(err)` applied to a `StatResult`: true exactly
for the not-exist error; `nil` errors and all other errors give false. -/
def isNotExist : StatResult → Bool
  | StatResult.errNotExist => true
  | _ => false

/-- Model of gcs.go `fileExists` (lines 275-278): `_, err := os.Stat(filename);
return !os.IsNotExist(err)`.  The stat outcome is the environment's answer
for the queried path. -/
def fileExists (stat : StatResult) : Bool :=
  !(isNotExist stat)

/-- Go `error` values the gcs package can return.  `ioErr` stands for any
opaque error produced by an external collaborator (GCS client, OS, json,
uuid), identified by its message; `objectFileNotFound` is
`fmt.Errorf("object file not found %s", objectFilePath)` built in `Write`;
`parseFailure` is `fmt.Errorf("failed parse on blockID %s: %v", idString, err)`
built in `Blocks`; `eof` is `io.EOF`. -/
inductive GoError where
  | ioErr (msg : GoStr) : GoError
  | objectFileNotFound (path : GoStr) : GoError
  | parseFailure (idString : GoStr) (msg : GoStr) : GoError
  | eof : GoError
deriving DecidableEq, Repr

/-- The remote bucket: an association list from object keys to committed byte
contents.  A write conses on the front, so the head is the most recent write
and `lookupKey` finds the latest value for a key. -/
abbrev Store := List (GoStr × List Nat)

/-- Latest committed value for a key, if any (models a whole-object read of an
existing/missing object). -/
def lookupKey : Store → GoStr → Option (List Nat)
  | [], _ => none
  | (k, v) :: rest, name => if k = name then some v else lookupKey rest name

/-- Go `path.Join(a, b)` for the argument shapes the gcs package produces:
segments that do not contain the `/` delimiter (the layer assumes, without
validating, that tenant and block identifiers are delimiter-free), so the
only cleaning behaviour that can trigger is the dropping of empty segments. -/
def pathJoin (a b : GoStr) : GoStr :=
  if a = [] then b else if b = [] then a else a ++ '/' :: b

/-- Model of gcs.go `rootPath` (lines 204-206): `path.Join(tenantID, blockID.String())`.
The block identifier is modelled by its canonical string form. -/
def rootPath (blockID tenantID : GoStr) : GoStr :=
  pathJoin tenantID blockID

/-- Model of gcs.go `metaFileName` (lines 188-190). -/
def metaFileName (blockID tenantID : GoStr) : GoStr :=
  pathJoin (rootPath blockID tenantID) ("meta.json".data)

/-- Model of gcs.go `bloomFileName` (lines 192-194). -/
def bloomFileName (blockID tenantID : GoStr) : GoStr :=
  pathJoin (rootPath blockID tenantID) ("bloom".data)

/-- Model of gcs.go `indexFileName` (lines 196-198). -/
def indexFileName (blockID tenantID : GoStr) : GoStr :=
  pathJoin (rootPath blockID tenantID) ("index".data)

/-- Model of gcs.go `objectFileName` (lines 200-202). -/
def objectFileName (blockID tenantID : GoStr) : GoStr :=
  pathJoin (rootPath blockID tenantID) ("data".data)

/-- Model of gcs.go `writeAll` (lines 208-218): open a writer for `name`, write `b`,
close.  `errInj` is the external store's outcome for this round trip: on an
error the object is not committed and the error is returned; on success the
store gains `(name, b)`. -/
def writeAll (errInj : Option GoStr) (st : Store) (name : GoStr) (b : List Nat) :
    Option GoError × Store :=
  match errInj with
  | some msg => (some (GoError.ioErr msg), st)
  | none => (none, (name, b) :: st)

/-- Outcomes of the external collaborators consulted by one `Write` call, in
the order the call consults them.  `μ` is the opaque `*backend.BlockMeta`
type; `marshal` is `json.Marshal` on it.  Error fields carry the opaque
message of the collaborator's error, or `none` for success. -/
structure WriteEnv (μ : Type) where
  bloomErr : Option GoStr
  indexErr : Option GoStr
  stat : StatResult
  openRes : Except GoStr (List Nat)
  copyErr : Option GoStr
  marshal : μ → Except GoStr (List Nat)
  metaErr : Option GoStr

/-- Model of gcs.go `Write` (lines 50-92): write bloom, write index, check the local
source file exists (else `object file not found`), open it, stream-copy its
contents to the `data` key, `json.Marshal` the meta record, and write the
serialized meta last; the first failing step returns its error and nothing
after it runs.  `openRes` doubles as the full byte contents the `io.Copy`
step streams on success. -/
def Write {μ : Type} (env : WriteEnv μ) (st : Store) (blockID tenantID : GoStr)
    (meta : μ) (bBloom bIndex : List Nat) (objectFilePath : GoStr) :
    Option GoError × Store :=
  match writeAll env.bloomErr st (bloomFileName blockID tenantID) bBloom with
  | (some e, st1) => (some e, st1)
  | (none, st1) =>
    match writeAll env.indexErr st1 (indexFileName blockID tenantID) bIndex with
    | (some e, st2) => (some e, st2)
    | (none, st2) =>
      if !fileExists env.stat then
        (some (GoError.objectFileNotFound objectFilePath), st2)
      else
        match env.openRes with
        | Except.error msg => (some (GoError.ioErr msg), st2)
        | Except.ok contents =>
          match env.copyErr with
          | some msg => (some (GoError.ioErr msg), st2)
          | none =>
            let st3 : Store := (objectFileName blockID tenantID, contents) :: st2
            match env.marshal meta with
            | Except.error msg => (some (GoError.ioErr msg), st3)
            | Except.ok bMeta =>
              match writeAll env.metaErr st3 (metaFileName blockID tenantID) bMeta with
              | (some e, st4) => (some e, st4)
              | (none, st4) => (none, st4)

/-- Model of gcs.go `readAll` (lines 227-235): open a whole-object reader for `name`
(fails if the object does not exist) and read all its bytes.  `errInj` is an
injectable network failure for the round trip. -/
def readAll (errInj : Option GoStr) (st : Store) (name : GoStr) :
    Except GoError (List Nat) :=
  match errInj with
  | some msg => Except.error (GoError.ioErr msg)
  | none =>
    match lookupKey st name with
    | none => Except.error (GoError.ioErr ("storage: object does not exist".data))
    | some v => Except.ok v

/-- Model of gcs.go `Bloom` (lines 169-172): `readAll` of the bloom key. -/
def Bloom (errInj : Option GoStr) (st : Store) (blockID tenantID : GoStr) :
    Except GoError (List Nat) :=
  readAll errInj st (bloomFileName blockID tenantID)

/-- Model of gcs.go `Index` (lines 174-177): `readAll` of the index key. -/
def Index (errInj : Option GoStr) (st : Store) (blockID tenantID : GoStr) :
    Except GoError (List Nat) :=
  readAll errInj st (indexFileName blockID tenantID)

/-- Model of gcs.go `BlockMeta` (lines 152-167): `readAll` of the meta key then
`json.Unmarshal`; either failure is returned.  `unmarshal` is the abstract
wire decoding of the opaque `μ = *backend.BlockMeta`. -/
def BlockMeta {μ : Type} (unmarshal : List Nat → Except GoStr μ)
    (errInj : Option GoStr) (st : Store) (blockID tenantID : GoStr) :
    Except GoError μ :=
  match readAll errInj st (metaFileName blockID tenantID) with
  | Except.error e => Except.error e
  | Except.ok bytes =>
    match unmarshal bytes with
    | Except.error msg => Except.error (GoError.ioErr msg)
    | Except.ok out => Except.ok out

/-- Overwriting `chunk` into `buffer` starting at index `i`, as a Go `Read`
into the slice `buffer[i:]` does: bytes before `i` and from `i + len(chunk)`
on are untouched. -/
def writeAt (buffer : List Nat) (i : Nat) (chunk : List Nat) : List Nat :=
  buffer.take i ++ chunk ++ buffer.drop (i + chunk.length)

/-- The ranged reader handed back by `NewRangeReader`: the bytes it has left
to deliver, a schedule of per-call delivery caps (modelling short reads — an
entry smaller than the requested slice makes that `Read` return fewer bytes;
an exhausted schedule means no cap), and an injectable failure after
`failAfter` further reads. -/
structure RangeReader where
  data : List Nat
  caps : List Nat
  failAfter : Option Nat
  failMsg : GoStr
deriving DecidableEq, Repr

/-- One `r.Read(p)` call with `space = len(p)`: an injected failure returns
its error; an exhausted reader returns `io.EOF`; otherwise it delivers
`min(space, cap, remaining)` bytes (never more than the slice can hold). -/
def RangeReader.read (r : RangeReader) (space : Nat) :
    List Nat × Option GoError × RangeReader :=
  if r.failAfter = some 0 then ([], some (GoError.ioErr r.failMsg), r)
  else if r.data = [] then ([], some GoError.eof, r)
  else
    let n := min space (min (r.caps.headD space) r.data.length)
    (r.data.take n, none,
      { data := r.data.drop n, caps := r.caps.tail,
        failAfter := r.failAfter.map (fun k => k - 1), failMsg := r.failMsg })

theorem read_chunk_le (r : RangeReader) (space : Nat) :
    (r.read space).1.length ≤ space := by
  unfold RangeReader.read
  split
  · simp
  · split
    · simp
    · simp only [List.length_take]
      omega

/-- The read loop of gcs.go `readRange` (lines 259-272):
`byteCount, err := r.Read(buffer[totalBytes:])`; `io.EOF` returns success,
any other error is returned, a zero-byte read returns success, and otherwise
the delivered chunk now sits in `buffer[totalBytes:]` and the loop continues
at `totalBytes + byteCount`. -/
def readRangeLoop (r : RangeReader) (buffer : List Nat) (totalBytes : Nat) :
    Option GoError × List Nat :=
  match h : r.read (buffer.length - totalBytes) with
  | (_, some GoError.eof, _) => (none, buffer)
  | (_, some e, _) => (some e, buffer)
  | (chunk, none, r2) =>
    if hc : chunk.length = 0 then (none, buffer)
    else readRangeLoop r2 (writeAt buffer totalBytes chunk) (totalBytes + chunk.length)
termination_by buffer.length - totalBytes
decreasing_by
  have hle : chunk.length ≤ buffer.length - totalBytes := by
    have h2 := read_chunk_le r (buffer.length - totalBytes)
    rw [h] at h2
    exact h2
  have hw : (writeAt buffer totalBytes chunk).length = buffer.length := by
    unfold writeAt
    simp only [List.length_append, List.length_take, List.length_drop]
    omega
  rw [hw]
  omega

/-- The successive values of `totalBytes` at which the loop of `readRange`
issues a `Read` call, i.e. the offsets of the slices `buffer[totalBytes:]` it
takes. -/
def readRangeOffsets (r : RangeReader) (buffer : List Nat) (totalBytes : Nat) :
    List Nat :=
  match h : r.read (buffer.length - totalBytes) with
  | (_, some _, _) => [totalBytes]
  | (chunk, none, r2) =>
    if hc : chunk.length = 0 then [totalBytes]
    else totalBytes ::
      readRangeOffsets r2 (writeAt buffer totalBytes chunk) (totalBytes + chunk.length)
termination_by buffer.length - totalBytes
decreasing_by
  have hle : chunk.length ≤ buffer.length - totalBytes := by
    have h2 := read_chunk_le r (buffer.length - totalBytes)
    rw [h] at h2
    exact h2
  have hw : (writeAt buffer totalBytes chunk).length = buffer.length := by
    unfold writeAt
    simp only [List.length_append, List.length_take, List.length_drop]
    omega
  rw [hw]
  omega

/-- Model of gcs.go `readRange` (lines 252-273): `NewRangeReader(ctx, offset,
len(buffer))` — `rangeOpen` is its outcome, an error or the full stored
object bytes — then the read loop starting at `totalBytes = 0`.  The ranged
reader delivers at most `len(buffer)` bytes starting at byte `offset` of the
object. -/
def readRange (rangeOpen : Except GoStr (List Nat)) (offset : Nat)
    (caps : List Nat) (failAfter : Option Nat) (failMsg : GoStr)
    (buffer : List Nat) : Option GoError × List Nat :=
  match rangeOpen with
  | Except.error msg => (some (GoError.ioErr msg), buffer)
  | Except.ok objData =>
    readRangeLoop
      { data := (objData.drop offset).take buffer.length,
        caps := caps, failAfter := failAfter, failMsg := failMsg }
      buffer 0

/-- Model of gcs.go `Object` (lines 179-182): ranged read of the `data` key into
`buffer` starting at byte `start`; a missing object surfaces as the range
open failing. -/
def Object (st : Store) (blockID tenantID : GoStr) (start : Nat)
    (caps : List Nat) (failAfter : Option Nat) (failMsg : GoStr)
    (buffer : List Nat) : Option GoError × List Nat :=
  readRange
    (match lookupKey st (objectFileName blockID tenantID) with
      | none => Except.error ("storage: object does not exist".data)
      | some d => Except.ok d)
    start caps failAfter failMsg buffer

/-- One step of the GCS listing iterator as the loops in `Tenants`/`Blocks`
observe it: either a successfully read entry carrying its `attrs.Prefix`
string, or a per-entry read error (`iterator.Done` is the end of the list). -/
inductive IterRes where
  | entry (p : GoStr) : IterRes
  | iterError (msg : GoStr) : IterRes
deriving DecidableEq, Repr

/-- Go `strings.TrimSuffix(s, suf)`: drop `suf` from the end of `s` when it
is a suffix, else return `s` unchanged. -/
def trimSuffix (s suf : GoStr) : GoStr :=
  if suf.isSuffixOf s then s.take (s.length - suf.length) else s

/-- Go `strings.TrimPrefix(s, pre)`: drop `pre` from the front of `s` when
it starts with it, else return `s` unchanged. -/
def trimPre (s pre : GoStr) : GoStr :=
  if pre.isPrefixOf s then s.drop pre.length else s

/-- The iteration of gcs.go `Tenants` (lines 103-113): a per-entry error
overwrites `warning` and the loop continues; a read entry appends its
`attrs.Prefix` with the trailing delimiter trimmed. -/
def TenantsLoop : List IterRes → List GoStr → Option GoError →
    List GoStr × Option GoError
  | [], tenants, warning => (tenants, warning)
  | IterRes.iterError msg :: rest, tenants, _ =>
      TenantsLoop rest tenants (some (GoError.ioErr msg))
  | IterRes.entry p :: rest, tenants, warning =>
      TenantsLoop rest (tenants ++ [trimSuffix p (['/'] : GoStr)]) warning

/-- Model of gcs.go `Tenants` (lines 94-116): run the loop over the listing's entries
with an empty accumulator and no warning. -/
def Tenants (entries : List IterRes) : List GoStr × Option GoError :=
  TenantsLoop entries [] none

/-- The local `idString` of gcs.go `Blocks` (line 139): the entry's
`attrs.Prefix` stripped of the leading `tenantID + "/"` and the trailing
delimiter. -/
def blockIdString (tenantID p : GoStr) : GoStr :=
  trimSuffix (trimPre p (tenantID ++ ['/'])) ['/']

/-- The iteration of gcs.go `Blocks` (lines 129-147): a per-entry read error
overwrites `warning`; otherwise the entry's `idString` is parsed by
`uuid.Parse` (the abstract `parse`); a parse failure overwrites `warning`
with `failed parse on blockID ...` and the loop continues; a parsed
identifier is appended. -/
def BlocksLoop (parse : GoStr → Except GoStr GoStr) (tenantID : GoStr) :
    List IterRes → List GoStr → Option GoError → List GoStr × Option GoError
  | [], blocks, warning => (blocks, warning)
  | IterRes.iterError msg :: rest, blocks, _ =>
      BlocksLoop parse tenantID rest blocks (some (GoError.ioErr msg))
  | IterRes.entry p :: rest, blocks, warning =>
      match parse (blockIdString tenantID p) with
      | Except.error msg =>
          BlocksLoop parse tenantID rest blocks
            (some (GoError.parseFailure (blockIdString tenantID p) msg))
      | Except.ok blockID =>
          BlocksLoop parse tenantID rest (blocks ++ [blockID]) warning

/-- Model of gcs.go `Blocks` (lines 118-150): run the loop over the listing's entries
under `tenantID + "/"` with an empty accumulator and no warning. -/
def Blocks (parse : GoStr → Except GoStr GoStr) (tenantID : GoStr)
    (entries : List IterRes) : List GoStr × Option GoError :=
  BlocksLoop parse tenantID entries [] none

/-! Key-scheme facts: the four component keys of one block are pairwise
distinct, because they share the root and end in distinct non-empty
component names. -/

theorem pathJoin_ne (r a b : GoStr) (ha : a ≠ []) (hb : b ≠ []) (hab : a ≠ b) :
    pathJoin r a ≠ pathJoin r b := by
  unfold pathJoin
  by_cases hr : r = []
  · simp [hr, ha, hb, hab]
  · simp only [hr, if_false, ha, hb]
    intro heq
    exact hab (List.cons_injective (List.append_cancel_left heq))

theorem meta_ne_bloom (blockID tenantID : GoStr) :
    metaFileName blockID tenantID ≠ bloomFileName blockID tenantID :=
  pathJoin_ne _ _ _ (by decide) (by decide) (by decide)

theorem meta_ne_index (blockID tenantID : GoStr) :
    metaFileName blockID tenantID ≠ indexFileName blockID tenantID :=
  pathJoin_ne _ _ _ (by decide) (by decide) (by decide)

theorem meta_ne_object (blockID tenantID : GoStr) :
    metaFileName blockID tenantID ≠ objectFileName blockID tenantID :=
  pathJoin_ne _ _ _ (by decide) (by decide) (by decide)

theorem bloom_ne_index (blockID tenantID : GoStr) :
    bloomFileName blockID tenantID ≠ indexFileName blockID tenantID :=
  pathJoin_ne _ _ _ (by decide) (by decide) (by decide)

theorem bloom_ne_object (blockID tenantID : GoStr) :
    bloomFileName blockID tenantID ≠ objectFileName blockID tenantID :=
  pathJoin_ne _ _ _ (by decide) (by decide) (by decide)

theorem index_ne_object (blockID tenantID : GoStr) :
    indexFileName blockID tenantID ≠ objectFileName blockID tenantID :=
  pathJoin_ne _ _ _ (by decide) (by decide) (by decide)

/-- C8: for every non-empty tenant-id and block-id, the key scheme is a pure
total function mapping the pair to exactly the four keys
`tenant-id/block-id/meta.json`, `.../bloom`, `.../index`, `.../data`. -/
theorem C8_key_scheme (blockID tenantID : GoStr)
    (hb : blockID ≠ []) (ht : tenantID ≠ []) :
    metaFileName blockID tenantID
        = tenantID ++ '/' :: blockID ++ '/' :: "meta.json".data ∧
    bloomFileName blockID tenantID
        = tenantID ++ '/' :: blockID ++ '/' :: "bloom".data ∧
    indexFileName blockID tenantID
        = tenantID ++ '/' :: blockID ++ '/' :: "index".data ∧
    objectFileName blockID tenantID
        = tenantID ++ '/' :: blockID ++ '/' :: "data".data := by
  have hroot : rootPath blockID tenantID = tenantID ++ '/' :: blockID := by
    unfold rootPath pathJoin
    simp [ht, hb]
  have hne : tenantID ++ '/' :: blockID ≠ [] := by
    intro h
    exact ht (List.append_eq_nil.mp h).1
  refine ⟨?_, ?_, ?_, ?_⟩ <;>
    simp [metaFileName, bloomFileName, indexFileName, objectFileName, hroot,
      pathJoin, hne]

/-- C8 witness at a concrete tenant and block identifier. -/
theorem C8_key_scheme_witness :
    gcs.metaFileName "b1".data "t1".data
        = "t1".data ++ '/' :: "b1".data ++ '/' :: "meta.json".data ∧
    gcs.bloomFileName "b1".data "t1".data
        = "t1".data ++ '/' :: "b1".data ++ '/' :: "bloom".data ∧
    gcs.indexFileName "b1".data "t1".data
        = "t1".data ++ '/' :: "b1".data ++ '/' :: "index".data ∧
    gcs.objectFileName "b1".data "t1".data
        = "t1".data ++ '/' :: "b1".data ++ '/' :: "data".data :=
  C8_key_scheme "b1".data "t1".data (by decide) (by decide)

/-- C2: within one `Write` call the store only ever grows, in write order,
along the strict sequence bloom, then index, then object payload, then meta
(the store lists the entries one call added most-recent-first, so the
possible outcomes are exactly the prefixes of that sequence, with meta last
when it is present at all). -/
theorem C2_write_order {μ : Type} (env : WriteEnv μ) (st : Store)
    (blockID tenantID : GoStr) (meta : μ) (bBloom bIndex : List Nat)
    (objectFilePath : GoStr) :
    (Write env st blockID tenantID meta bBloom bIndex objectFilePath).2 = st ∨
    (Write env st blockID tenantID meta bBloom bIndex objectFilePath).2
      = (bloomFileName blockID tenantID, bBloom) :: st ∨
    (Write env st blockID tenantID meta bBloom bIndex objectFilePath).2
      = (indexFileName blockID tenantID, bIndex)
          :: (bloomFileName blockID tenantID, bBloom) :: st ∨
    (∃ contents,
      (Write env st blockID tenantID meta bBloom bIndex objectFilePath).2
        = (objectFileName blockID tenantID, contents)
            :: (indexFileName blockID tenantID, bIndex)
            :: (bloomFileName blockID tenantID, bBloom) :: st) ∨
    (∃ contents bMeta,
      (Write env st blockID tenantID meta bBloom bIndex objectFilePath).2
        = (metaFileName blockID tenantID, bMeta)
            :: (objectFileName blockID tenantID, contents)
            :: (indexFileName blockID tenantID, bIndex)
            :: (bloomFileName blockID tenantID, bBloom) :: st) := by
  unfold Write writeAll
  rcases env.bloomErr with _ | bmsg
  · rcases env.indexErr with _ | imsg
    · by_cases hstat : fileExists env.stat
      · rcases env.openRes with omsg | contents
        · simp [hstat]
        · rcases env.copyErr with _ | cmsg
          · rcases hm : env.marshal meta with mmsg | bMeta
            · simp [hstat, hm]
            · rcases env.metaErr with _ | wmsg <;> simp [hstat, hm]
          · simp [hstat]
      · simp [hstat]
    · simp
  · simp

/-- C1: when the payload source file does not exist (the stat reports
not-exist) and the bloom and index store writes themselves succeed, `Write`
returns the source-missing error `object file not found ...` and the meta
key of that (tenant, block) is never written: its store binding is exactly
what it was before the call. -/
theorem C1_source_missing {μ : Type} (env : WriteEnv μ) (st : Store)
    (blockID tenantID : GoStr) (meta : μ) (bBloom bIndex : List Nat)
    (objectFilePath : GoStr)
    (hbl : env.bloomErr = none) (hix : env.indexErr = none)
    (hstat : env.stat = StatResult.errNotExist) :
    (Write env st blockID tenantID meta bBloom bIndex objectFilePath).1
        = some (GoError.objectFileNotFound objectFilePath) ∧
    lookupKey (Write env st blockID tenantID meta bBloom bIndex objectFilePath).2
        (metaFileName blockID tenantID)
      = lookupKey st (metaFileName blockID tenantID) := by
  have hfe : fileExists env.stat = false := by rw [hstat]; rfl
  have h1 := Ne.symm (meta_ne_index blockID tenantID)
  have h2 := Ne.symm (meta_ne_bloom blockID tenantID)
  unfold Write writeAll
  simp [hbl, hix, hfe, lookupKey, h1, h2]

/-- Environment for witnesses: every collaborator succeeds except that the
stat of the local payload source reports not-exist. -/
def envNoSource : WriteEnv Nat :=
  { bloomErr := none, indexErr := none, stat := StatResult.errNotExist,
    openRes := Except.ok [9], copyErr := none,
    marshal := fun _ => Except.ok [7], metaErr := none }

/-- C1 witness: a concrete `Write` call whose payload source is missing. -/
theorem C1_source_missing_witness :
    (gcs.Write gcs.envNoSource [] "b1".data "t1".data 0 [1] [2] "p0".data).1
        = some (gcs.GoError.objectFileNotFound "p0".data) ∧
    gcs.lookupKey
        (gcs.Write gcs.envNoSource [] "b1".data "t1".data 0 [1] [2] "p0".data).2
        (gcs.metaFileName "b1".data "t1".data)
      = gcs.lookupKey [] (gcs.metaFileName "b1".data "t1".data) :=
  C1_source_missing envNoSource [] "b1".data "t1".data 0 [1] [2] "p0".data
    rfl rfl rfl

/-- C7: the first failing step of `Write` — bloom write, index write, source
existence check, source open, payload copy, meta serialization, meta write —
aborts the call with exactly that step's error, every later step is skipped
(no later key appears), and everything earlier steps wrote is left in the
store untouched. -/
theorem C7_write_failure_propagation {μ : Type} (env : WriteEnv μ) (st : Store)
    (blockID tenantID : GoStr) (meta : μ) (bBloom bIndex : List Nat)
    (objectFilePath : GoStr) :
    (∀ m, env.bloomErr = some m →
      Write env st blockID tenantID meta bBloom bIndex objectFilePath
        = (some (GoError.ioErr m), st)) ∧
    (∀ m, env.bloomErr = none → env.indexErr = some m →
      Write env st blockID tenantID meta bBloom bIndex objectFilePath
        = (some (GoError.ioErr m),
            (bloomFileName blockID tenantID, bBloom) :: st)) ∧
    (env.bloomErr = none → env.indexErr = none →
      env.stat = StatResult.errNotExist →
      Write env st blockID tenantID meta bBloom bIndex objectFilePath
        = (some (GoError.objectFileNotFound objectFilePath),
            (indexFileName blockID tenantID, bIndex)
              :: (bloomFileName blockID tenantID, bBloom) :: st)) ∧
    (∀ m, env.bloomErr = none → env.indexErr = none →
      fileExists env.stat = true → env.openRes = Except.error m →
      Write env st blockID tenantID meta bBloom bIndex objectFilePath
        = (some (GoError.ioErr m),
            (indexFileName blockID tenantID, bIndex)
              :: (bloomFileName blockID tenantID, bBloom) :: st)) ∧
    (∀ m c, env.bloomErr = none → env.indexErr = none →
      fileExists env.stat = true → env.openRes = Except.ok c →
      env.copyErr = some m →
      Write env st blockID tenantID meta bBloom bIndex objectFilePath
        = (some (GoError.ioErr m),
            (indexFileName blockID tenantID, bIndex)
              :: (bloomFileName blockID tenantID, bBloom) :: st)) ∧
    (∀ m c, env.bloomErr = none → env.indexErr = none →
      fileExists env.stat = true → env.openRes = Except.ok c →
      env.copyErr = none → env.marshal meta = Except.error m →
      Write env st blockID tenantID meta bBloom bIndex objectFilePath
        = (some (GoError.ioErr m),
            (objectFileName blockID tenantID, c)
              :: (indexFileName blockID tenantID, bIndex)
              :: (bloomFileName blockID tenantID, bBloom) :: st)) ∧
    (∀ m c bM, env.bloomErr = none → env.indexErr = none →
      fileExists env.stat = true → env.openRes = Except.ok c →
      env.copyErr = none → env.marshal meta = Except.ok bM →
      env.metaErr = some m →
      Write env st blockID tenantID meta bBloom bIndex objectFilePath
        = (some (GoError.ioErr m),
            (objectFileName blockID tenantID, c)
              :: (indexFileName blockID tenantID, bIndex)
              :: (bloomFileName blockID tenantID, bBloom) :: st)) := by
  refine ⟨?_, ?_, ?_, ?_, ?_, ?_, ?_⟩
  · intro m hm
    unfold Write writeAll
    simp [hm]
  · intro m h1 hm
    unfold Write writeAll
    simp [h1, hm]
  · intro h1 h2 hs
    have hfe : fileExists env.stat = false := by rw [hs]; rfl
    unfold Write writeAll
    simp [h1, h2, hfe]
  · intro m h1 h2 hfe hm
    unfold Write writeAll
    simp [h1, h2, hfe, hm]
  · intro m c h1 h2 hfe ho hm
    unfold Write writeAll
    simp [h1, h2, hfe, ho, hm]
  · intro m c h1 h2 hfe ho hc hm
    unfold Write writeAll
    simp [h1, h2, hfe, ho, hc, hm]
  · intro m c bM h1 h2 hfe ho hc hmm hm
    unfold Write writeAll
    simp [h1, h2, hfe, ho, hc, hmm, hm]

/-- Environment for witnesses: the very first step (the bloom write) fails. -/
def envBloomFails : WriteEnv Nat :=
  { bloomErr := some "b-err".data, indexErr := none, stat := StatResult.ok,
    openRes := Except.ok [9], copyErr := none,
    marshal := fun _ => Except.ok [7], metaErr := none }

/-- Environment for witnesses: every step succeeds except the final meta
write. -/
def envMetaFails : WriteEnv Nat :=
  { bloomErr := none, indexErr := none, stat := StatResult.ok,
    openRes := Except.ok [9], copyErr := none,
    marshal := fun _ => Except.ok [7], metaErr := some "m-err".data }

/-- C7 witness: a first-step failure returns that error with the store
untouched, and a last-step (meta write) failure returns that error with
bloom, index and object still in the store. -/
theorem C7_write_failure_propagation_witness :
    gcs.Write gcs.envBloomFails [] "b1".data "t1".data 0 [1] [2] "p0".data
      = (some (gcs.GoError.ioErr "b-err".data), []) ∧
    gcs.Write gcs.envMetaFails [] "b1".data "t1".data 0 [1] [2] "p0".data
      = (some (gcs.GoError.ioErr "m-err".data),
          (gcs.objectFileName "b1".data "t1".data, [9])
            :: (gcs.indexFileName "b1".data "t1".data, [2])
            :: (gcs.bloomFileName "b1".data "t1".data, [1]) :: []) :=
  ⟨(C7_write_failure_propagation envBloomFails [] "b1".data "t1".data 0 [1] [2]
      "p0".data).1 "b-err".data rfl,
   (C7_write_failure_propagation envMetaFails [] "b1".data "t1".data 0 [1] [2]
      "p0".data).2.2.2.2.2.2 "m-err".data [9] [7] rfl rfl rfl rfl rfl rfl rfl⟩

/-- C10: `Write` returns its `object file not found` error exactly when the
stat of the payload source reports not-exist (and then for the queried
path); when the stat fails for any other reason the existence check passes,
and a failure of the subsequent open step surfaces as that step's own
error. -/
theorem C10_stat_only_not_exist {μ : Type} (env : WriteEnv μ) (st : Store)
    (blockID tenantID : GoStr) (meta : μ) (bBloom bIndex : List Nat)
    (objectFilePath : GoStr) :
    (∀ p, (Write env st blockID tenantID meta bBloom bIndex objectFilePath).1
        = some (GoError.objectFileNotFound p) →
      env.stat = StatResult.errNotExist ∧ p = objectFilePath) ∧
    (∀ msg m, env.stat = StatResult.errOther msg →
      env.bloomErr = none → env.indexErr = none →
      env.openRes = Except.error m →
      (Write env st blockID tenantID meta bBloom bIndex objectFilePath).1
        = some (GoError.ioErr m)) := by
  obtain ⟨be, ie, stt, orr, ce, mar, me⟩ := env
  constructor
  · intro p hp
    unfold Write writeAll at hp
    rcases be with _ | bmsg
    · rcases ie with _ | imsg
      · cases stt with
        | ok =>
          rcases orr with omsg | contents
          · simp [fileExists, isNotExist] at hp
          · rcases ce with _ | cmsg
            · rcases hm : mar meta with mmsg | bMeta
              · simp [fileExists, isNotExist, hm] at hp
              · rcases me with _ | wmsg <;>
                  simp [fileExists, isNotExist, hm] at hp
            · simp [fileExists, isNotExist] at hp
        | errNotExist =>
          simp [fileExists, isNotExist] at hp
          exact ⟨rfl, hp.symm⟩
        | errOther msg =>
          rcases orr with omsg | contents
          · simp [fileExists, isNotExist] at hp
          · rcases ce with _ | cmsg
            · rcases hm : mar meta with mmsg | bMeta
              · simp [fileExists, isNotExist, hm] at hp
              · rcases me with _ | wmsg <;>
                  simp [fileExists, isNotExist, hm] at hp
            · simp [fileExists, isNotExist] at hp
      · simp at hp
    · simp at hp
  · intro msg m hs h1 h2 ho
    unfold Write writeAll
    simp only at h1 h2 hs ho
    simp [h1, h2, hs, ho, fileExists, isNotExist]

/-- Environment for witnesses: the stat of the payload source fails with a
permission error, and the open step then fails with its own error. -/
def envStatPermission : WriteEnv Nat :=
  { bloomErr := none, indexErr := none,
    stat := StatResult.errOther "permission denied".data,
    openRes := Except.error "open failed".data, copyErr := none,
    marshal := fun _ => Except.ok [7], metaErr := none }

/-- C10 witness: a missing source yields the not-found error for the queried
path, while a permission-failing stat lets `Write` proceed to the open step,
whose error it returns. -/
theorem C10_stat_only_not_exist_witness :
    (gcs.envNoSource.stat = gcs.StatResult.errNotExist ∧
      "p0".data = "p0".data) ∧
    (gcs.Write gcs.envStatPermission [] "b1".data "t1".data 0 [1] [2]
        "p0".data).1 = some (gcs.GoError.ioErr "open failed".data) :=
  ⟨(C10_stat_only_not_exist envNoSource [] "b1".data "t1".data 0 [1] [2]
      "p0".data).1 "p0".data rfl,
   (C10_stat_only_not_exist envStatPermission [] "b1".data "t1".data 0 [1] [2]
      "p0".data).2 "permission denied".data "open failed".data rfl rfl rfl rfl⟩

/-! Listing contract: spec-side descriptions of what one enumeration
returns — the successfully read entries in order, and the most recent
failure — to compare with the iteration loops translated from the source. -/

/-- Spec-side: the tenant names a `Tenants` listing successfully reads, in
order (each read entry with its trailing delimiter trimmed). -/
def tenantsOk (entries : List IterRes) : List GoStr :=
  entries.filterMap fun e =>
    match e with
    | IterRes.entry p => some (trimSuffix p ['/'])
    | IterRes.iterError _ => none

/-- Spec-side: the per-entry failures of a listing, in order. -/
def iterFailures (entries : List IterRes) : List GoError :=
  entries.filterMap fun e =>
    match e with
    | IterRes.entry _ => none
    | IterRes.iterError msg => some (GoError.ioErr msg)

/-- Spec-side: the successfully parsed block identifiers of a `Blocks`
listing, in order. -/
def blocksOk (parse : GoStr → Except GoStr GoStr) (tenantID : GoStr)
    (entries : List IterRes) : List GoStr :=
  entries.filterMap fun e =>
    match e with
    | IterRes.iterError _ => none
    | IterRes.entry p =>
      match parse (blockIdString tenantID p) with
      | Except.error _ => none
      | Except.ok blockID => some blockID

/-- Spec-side: the per-entry failures of a `Blocks` listing — entry read
errors and parse failures — in order. -/
def blockFailures (parse : GoStr → Except GoStr GoStr) (tenantID : GoStr)
    (entries : List IterRes) : List GoError :=
  entries.filterMap fun e =>
    match e with
    | IterRes.iterError msg => some (GoError.ioErr msg)
    | IterRes.entry p =>
      match parse (blockIdString tenantID p) with
      | Except.error msg =>
          some (GoError.parseFailure (blockIdString tenantID p) msg)
      | Except.ok _ => none

/-- The warning a loop carrying `w` ends with after the failures `l` occur:
the most recent of them, or `w` if none occur. -/
def lastWarning (l : List GoError) (w : Option GoError) : Option GoError :=
  match l with
  | [] => w
  | _ => l.getLast?

theorem lastWarning_cons (x : GoError) (l : List GoError) (w : Option GoError) :
    lastWarning (x :: l) w = lastWarning l (some x) := by
  cases l with
  | nil => simp [lastWarning]
  | cons y l => simp [lastWarning, List.getLast?_cons_cons]

theorem lastWarning_nil_right (l : List GoError) :
    lastWarning l none = l.getLast? := by
  cases l <;> simp [lastWarning]

theorem TenantsLoop_spec (entries : List IterRes) (acc : List GoStr)
    (w : Option GoError) :
    TenantsLoop entries acc w
      = (acc ++ tenantsOk entries, lastWarning (iterFailures entries) w) := by
  induction entries generalizing acc w with
  | nil => simp [TenantsLoop, tenantsOk, iterFailures, lastWarning]
  | cons e rest ih =>
    cases e with
    | entry p =>
      simp [TenantsLoop, tenantsOk, iterFailures, ih]
    | iterError msg =>
      simp [TenantsLoop, tenantsOk, iterFailures, ih, lastWarning_cons]

theorem BlocksLoop_spec (parse : GoStr → Except GoStr GoStr)
    (tenantID : GoStr) (entries : List IterRes) (acc : List GoStr)
    (w : Option GoError) :
    BlocksLoop parse tenantID entries acc w
      = (acc ++ blocksOk parse tenantID entries,
          lastWarning (blockFailures parse tenantID entries) w) := by
  induction entries generalizing acc w with
  | nil => simp [BlocksLoop, blocksOk, blockFailures, lastWarning]
  | cons e rest ih =>
    cases e with
    | entry p =>
      cases hm : parse (blockIdString tenantID p) with
      | error msg =>
        simp [BlocksLoop, blocksOk, blockFailures, hm, ih, lastWarning_cons]
      | ok blockID =>
        simp [BlocksLoop, blocksOk, blockFailures, hm, ih]
    | iterError msg =>
      simp [BlocksLoop, blocksOk, blockFailures, ih, lastWarning_cons]

/-- C6: both `Tenants` and `Blocks` skip every entry that fails, still
return every successfully read (and, for `Blocks`, successfully parsed)
entry in order, and pair the result with exactly the most recent failure as
the single warning — later failures overwrite earlier ones. -/
theorem C6_listing_best_effort :
    (∀ entries, Tenants entries
      = (tenantsOk entries, (iterFailures entries).getLast?)) ∧
    (∀ parse tenantID entries, Blocks parse tenantID entries
      = (blocksOk parse tenantID entries,
          (blockFailures parse tenantID entries).getLast?)) := by
  constructor
  · intro entries
    rw [Tenants, TenantsLoop_spec, lastWarning_nil_right]
    simp
  · intro parse tenantID entries
    rw [Blocks, BlocksLoop_spec, lastWarning_nil_right]
    simp

/-- C5: when every entry of a tenant listing is successfully read and at
least one of them fails to parse as a block identifier, `Blocks` returns
exactly the successfully parsed identifiers in order, together with a
non-nil warning of the `failed parse on blockID ...` kind carrying an
offending unparseable string — enumeration continued past each parse
failure. -/
theorem C5_blocks_parse_tolerance (parse : GoStr → Except GoStr GoStr)
    (tenantID : GoStr) (entries : List IterRes)
    (hall : ∀ e ∈ entries, ∃ p, e = IterRes.entry p)
    (hbad : blockFailures parse tenantID entries ≠ []) :
    (Blocks parse tenantID entries).1 = blocksOk parse tenantID entries ∧
    ∃ s m, (Blocks parse tenantID entries).2
        = some (GoError.parseFailure s m) ∧
      parse s = Except.error m := by
  have hspec := BlocksLoop_spec parse tenantID entries [] none
  rw [Blocks, hspec, lastWarning_nil_right]
  refine ⟨by simp, ?_⟩
  have hmem : (blockFailures parse tenantID entries).getLast hbad
      ∈ blockFailures parse tenantID entries := List.getLast_mem hbad
  rw [List.getLast?_eq_getLast _ hbad]
  simp only [blockFailures, List.mem_filterMap] at hmem
  obtain ⟨e, he, hfe⟩ := hmem
  obtain ⟨p, rfl⟩ := hall e he
  simp only at hfe
  cases hm : parse (blockIdString tenantID p) with
  | error msg =>
    rw [hm] at hfe
    simp only [Option.some.injEq] at hfe
    refine ⟨blockIdString tenantID p, msg, congrArg some ?_, hm⟩
    simp only [blockFailures]
    exact hfe.symm
  | ok blockID =>
    rw [hm] at hfe
    exact Option.noConfusion hfe

/-- Parsing rule for witnesses: only the canonical string `good` is a valid
identifier; everything else fails with an `invalid UUID` message. -/
def parseW (s : GoStr) : Except GoStr GoStr :=
  if s = "good".data then Except.ok s else Except.error "invalid UUID".data

/-- C5 witness: a listing with one parseable and one unparseable entry. -/
theorem C5_blocks_parse_tolerance_witness :
    (gcs.Blocks gcs.parseW "t1".data
        [gcs.IterRes.entry "t1/good/".data,
         gcs.IterRes.entry "t1/oops/".data]).1
      = gcs.blocksOk gcs.parseW "t1".data
          [gcs.IterRes.entry "t1/good/".data,
           gcs.IterRes.entry "t1/oops/".data] ∧
    ∃ s m, (gcs.Blocks gcs.parseW "t1".data
        [gcs.IterRes.entry "t1/good/".data,
         gcs.IterRes.entry "t1/oops/".data]).2
        = some (gcs.GoError.parseFailure s m) ∧
      gcs.parseW s = Except.error m :=
  C5_blocks_parse_tolerance parseW "t1".data
    [IterRes.entry "t1/good/".data, IterRes.entry "t1/oops/".data]
    (by
      intro e he
      simp only [List.mem_cons, List.not_mem_nil, or_false] at he
      rcases he with h | h <;> exact ⟨_, h⟩)
    (by decide)

/-! Ranged-read loop: unfolding equations, a characterization of one
successful `Read`, and the write-composition identity that lets the loop's
successive in-place chunk writes be described by one `writeAt`. -/

theorem writeAt_nil (buffer : List Nat) (i : Nat) : writeAt buffer i [] = buffer := by
  simp [writeAt]

theorem writeAt_length (buffer chunk : List Nat) (i : Nat)
    (h : i + chunk.length ≤ buffer.length) :
    (writeAt buffer i chunk).length = buffer.length := by
  unfold writeAt
  simp only [List.length_append, List.length_take, List.length_drop]
  omega

theorem writeAt_writeAt (buffer data : List Nat) (total n : Nat)
    (hsp : n ≤ buffer.length - total) (hlen : n ≤ data.length)
    (ht : total ≤ buffer.length) :
    writeAt (writeAt buffer total (data.take n)) (total + n)
        ((data.drop n).take (buffer.length - total - n))
      = writeAt buffer total (data.take (buffer.length - total)) := by
  unfold writeAt
  simp [List.take_append_eq_append_take, List.drop_append_eq_append_drop,
    List.length_take, List.length_drop, List.take_take, List.drop_drop]
  have e1 : (total + n - total ⊓ buffer.length) ⊓ n = n := by omega
  have e2 : total + n - total ⊓ buffer.length - n ⊓ data.length = 0 := by omega
  have e3 : total + n + (buffer.length - total - n) ⊓ (data.length - n)
        - total ⊓ buffer.length
      = n + (buffer.length - total - n) ⊓ (data.length - n) := by omega
  have e4 : total + n ⊓ data.length = total + n := by omega
  rw [e1, e2, e3, e4]
  have e6 : List.drop (total + n + (buffer.length - total - n) ⊓ (data.length - n))
      (List.take total buffer) = [] := by
    apply List.drop_eq_nil_of_le
    simp only [List.length_take]
    omega
  have e7 : List.drop (n + (buffer.length - total - n) ⊓ (data.length - n))
      (List.take n data) = [] := by
    apply List.drop_eq_nil_of_le
    simp only [List.length_take]
    omega
  rw [e6, e7]
  simp only [List.take_zero, List.nil_append, List.append_nil]
  have e8 : total + n + (n + (buffer.length - total - n) ⊓ (data.length - n)
        - n ⊓ data.length)
      = total + n + (buffer.length - total - n) ⊓ (data.length - n) := by omega
  rw [e8]
  have e9 : buffer.length - total = n + (buffer.length - total - n) := by omega
  rw [e9, List.take_add]
  have e10 : total + (n + (buffer.length - total - n)) ⊓ data.length
      = total + n + (buffer.length - total - n) ⊓ (data.length - n) := by omega
  rw [e10]
  simp [List.append_assoc]

theorem readRangeLoop_eq_eof (r : RangeReader) (buffer : List Nat) (total : Nat)
    (x : List Nat) (r2 : RangeReader)
    (h : r.read (buffer.length - total) = (x, some GoError.eof, r2)) :
    readRangeLoop r buffer total = (none, buffer) := by
  rw [readRangeLoop]
  split
  · rfl
  · rename_i fst e snd hne heq
    rw [h] at heq
    simp at heq
    exact absurd heq.2.1.symm hne
  · rename_i heq
    rw [h] at heq
    simp at heq

theorem readRangeLoop_eq_none (r : RangeReader) (buffer : List Nat)
    (total : Nat) (chunk : List Nat) (r2 : RangeReader)
    (h : r.read (buffer.length - total) = (chunk, none, r2)) :
    readRangeLoop r buffer total
      = if chunk.length = 0 then (none, buffer)
        else readRangeLoop r2 (writeAt buffer total chunk)
          (total + chunk.length) := by
  rw [readRangeLoop]
  split
  · rename_i heq
    rw [h] at heq
    simp at heq
  · rename_i fst e snd hne heq
    rw [h] at heq
    simp at heq
  · rename_i chunk' r2' heq
    rw [h] at heq
    simp only [Prod.mk.injEq] at heq
    obtain ⟨h1, -, h2⟩ := heq
    subst h1
    subst h2
    simp only [dite_eq_ite]

theorem read_none_char (r : RangeReader) (space : Nat) (chunk : List Nat)
    (r2 : RangeReader) (hf : r.failAfter = none)
    (h : r.read space = (chunk, none, r2)) :
    r.data ≠ [] ∧
    chunk = r.data.take (min space (min (r.caps.headD space) r.data.length)) ∧
    r2.data = r.data.drop (min space (min (r.caps.headD space) r.data.length)) ∧
    r2.caps = r.caps.tail ∧ r2.failAfter = none := by
  rw [RangeReader.read] at h
  rw [hf] at h
  rw [if_neg (by simp)] at h
  by_cases hdd : r.data = []
  · rw [if_pos hdd] at h
    simp at h
  · rw [if_neg hdd] at h
    simp only [Prod.mk.injEq] at h
    obtain ⟨h1, -, h2⟩ := h
    refine ⟨hdd, h1.symm, ?_, ?_, ?_⟩ <;> rw [← h2] <;> simp [hf]

theorem readRangeLoop_success (r : RangeReader) (buffer : List Nat)
    (total : Nat) :
    r.failAfter = none → (∀ c ∈ r.caps, 0 < c) → total ≤ buffer.length →
    readRangeLoop r buffer total
      = (none, writeAt buffer total (r.data.take (buffer.length - total))) := by
  induction r, buffer, total using readRangeLoop.induct with
  | case1 r buffer total fst snd h =>
    intro hf hcaps ht
    have hd : r.data = [] := by
      rw [RangeReader.read] at h
      rw [hf] at h
      rw [if_neg (by simp)] at h
      by_cases hdd : r.data = []
      · exact hdd
      · rw [if_neg hdd] at h
        simp at h
    rw [readRangeLoop_eq_eof _ _ _ _ _ h, hd]
    simp [writeAt_nil]
  | case2 r buffer total fst e snd hne h =>
    intro hf hcaps ht
    exfalso
    rw [RangeReader.read] at h
    rw [hf] at h
    rw [if_neg (by simp)] at h
    by_cases hdd : r.data = []
    · rw [if_pos hdd] at h
      simp only [Prod.mk.injEq, Option.some.injEq] at h
      exact hne h.2.1.symm
    · rw [if_neg hdd] at h
      simp at h
  | case3 r buffer total chunk r2 h hc =>
    intro hf hcaps ht
    obtain ⟨hdd, hchunk, hr2d, hr2c, hr2f⟩ := read_none_char _ _ _ _ hf h
    have hlen : 0 < r.data.length := List.length_pos.mpr hdd
    have hs0 : buffer.length - total = 0 := by
      rw [hchunk] at hc
      simp only [List.length_take] at hc
      cases hcp : r.caps with
      | nil =>
        rw [hcp] at hc
        simp only [List.headD_nil] at hc
        omega
      | cons c t =>
        have hcpos : 0 < c := hcaps c (by rw [hcp]; exact List.mem_cons_self c t)
        rw [hcp] at hc
        simp only [List.headD_cons] at hc
        omega
    rw [readRangeLoop_eq_none _ _ _ _ _ h, if_pos hc, hs0]
    simp [writeAt_nil]
  | case4 r buffer total chunk r2 h hc ih =>
    intro hf hcaps ht
    obtain ⟨hdd, hchunk, hr2d, hr2c, hr2f⟩ := read_none_char _ _ _ _ hf h
    have hN1 : min (buffer.length - total)
          (min (r.caps.headD (buffer.length - total)) r.data.length)
        ≤ buffer.length - total := by omega
    have hN2 : min (buffer.length - total)
          (min (r.caps.headD (buffer.length - total)) r.data.length)
        ≤ r.data.length := by omega
    have hchlen : chunk.length
        = min (buffer.length - total)
            (min (r.caps.headD (buffer.length - total)) r.data.length) := by
      rw [hchunk]
      simp only [List.length_take]
      omega
    have hblen : (writeAt buffer total chunk).length = buffer.length :=
      writeAt_length _ _ _ (by omega)
    have hcaps2 : ∀ c ∈ r2.caps, 0 < c := by
      rw [hr2c]
      intro c hcm
      exact hcaps c (List.mem_of_mem_tail hcm)
    have ht2 : total + chunk.length ≤ (writeAt buffer total chunk).length := by
      rw [hblen]
      omega
    rw [readRangeLoop_eq_none _ _ _ _ _ h, if_neg hc, ih hr2f hcaps2 ht2]
    rw [hblen, hr2d]
    have harg : buffer.length - (total + chunk.length)
        = buffer.length - total - chunk.length := by omega
    rw [harg, hchunk]
    rw [List.length_take, Nat.min_eq_left hN2]
    exact congrArg (Prod.mk none)
      (writeAt_writeAt buffer r.data total _ hN1 hN2 ht)

theorem readRangeLoop_no_failure (r : RangeReader) (buffer : List Nat)
    (total : Nat) :
    r.failAfter = none → (readRangeLoop r buffer total).1 = none := by
  induction r, buffer, total using readRangeLoop.induct with
  | case1 r buffer total fst snd h =>
    intro hf
    rw [readRangeLoop_eq_eof _ _ _ _ _ h]
  | case2 r buffer total fst e snd hne h =>
    intro hf
    exfalso
    rw [RangeReader.read] at h
    rw [hf] at h
    rw [if_neg (by simp)] at h
    by_cases hdd : r.data = []
    · rw [if_pos hdd] at h
      simp only [Prod.mk.injEq, Option.some.injEq] at h
      exact hne h.2.1.symm
    · rw [if_neg hdd] at h
      simp at h
  | case3 r buffer total chunk r2 h hc =>
    intro hf
    rw [readRangeLoop_eq_none _ _ _ _ _ h, if_pos hc]
  | case4 r buffer total chunk r2 h hc ih =>
    intro hf
    obtain ⟨-, -, -, -, hr2f⟩ := read_none_char _ _ _ _ hf h
    rw [readRangeLoop_eq_none _ _ _ _ _ h, if_neg hc]
    exact ih hr2f

/-- C4: in the read loop of `readRange`, a stream with no failure always
yields success (`nil`): a zero-byte read or end-of-data before the buffer is
full returns success with the buffer only partially filled.  When in
addition every scheduled delivery cap is positive (short reads deliver at
least one byte, as the `io.Reader` contract requires), the loop retries
short reads into the remaining buffer space until it has assembled
`min (available, len(buffer))` bytes at the front of the buffer — in
particular the full requested length whenever the stream holds at least
`len(buffer)` bytes. -/
theorem C4_read_loop_assembles (r : RangeReader) (buffer : List Nat) :
    (r.failAfter = none → (readRangeLoop r buffer 0).1 = none) ∧
    (r.failAfter = none → (∀ c ∈ r.caps, 0 < c) →
      readRangeLoop r buffer 0
        = (none, writeAt buffer 0 (r.data.take buffer.length))) ∧
    (r.failAfter = none → (∀ c ∈ r.caps, 0 < c) →
      buffer.length ≤ r.data.length →
      readRangeLoop r buffer 0 = (none, r.data.take buffer.length)) := by
  refine ⟨fun hf => readRangeLoop_no_failure r buffer 0 hf, fun hf hcaps => ?_,
    fun hf hcaps hle => ?_⟩
  · have := readRangeLoop_success r buffer 0 hf hcaps (Nat.zero_le _)
    simpa using this
  · have := readRangeLoop_success r buffer 0 hf hcaps (Nat.zero_le _)
    simp only [Nat.sub_zero] at this
    rw [this]
    unfold writeAt
    simp only [List.take_zero, List.nil_append, List.length_take, Nat.zero_add]
    rw [List.drop_eq_nil_of_le (by simp; omega)]
    simp

/-- C4 witness: a five-byte stream delivered in capped (short) chunks of two
bytes fills a four-byte buffer completely and successfully. -/
theorem C4_read_loop_assembles_witness :
    (gcs.readRangeLoop
        { data := [1, 2, 3, 4, 5], caps := [2], failAfter := none,
          failMsg := [] } [0, 0, 0, 0] 0).1 = none ∧
    gcs.readRangeLoop
        { data := [1, 2, 3, 4, 5], caps := [2], failAfter := none,
          failMsg := [] } [0, 0, 0, 0] 0
      = (none, ([1, 2, 3, 4, 5] : List Nat).take 4) :=
  ⟨(C4_read_loop_assembles
      { data := [1, 2, 3, 4, 5], caps := [2], failAfter := none,
        failMsg := [] } [0, 0, 0, 0]).1 rfl,
   (C4_read_loop_assembles
      { data := [1, 2, 3, 4, 5], caps := [2], failAfter := none,
        failMsg := [] } [0, 0, 0, 0]).2.2 rfl (by decide) (by decide)⟩

theorem readRangeOffsets_eq_some (r : RangeReader) (buffer : List Nat)
    (total : Nat) (x : List Nat) (e : GoError) (r2 : RangeReader)
    (h : r.read (buffer.length - total) = (x, some e, r2)) :
    readRangeOffsets r buffer total = [total] := by
  rw [readRangeOffsets]
  split
  · rfl
  · rename_i chunk' r2' heq
    rw [h] at heq
    simp at heq

theorem readRangeOffsets_eq_none (r : RangeReader) (buffer : List Nat)
    (total : Nat) (chunk : List Nat) (r2 : RangeReader)
    (h : r.read (buffer.length - total) = (chunk, none, r2)) :
    readRangeOffsets r buffer total
      = if chunk.length = 0 then [total]
        else total :: readRangeOffsets r2 (writeAt buffer total chunk)
          (total + chunk.length) := by
  rw [readRangeOffsets]
  split
  · rename_i heq
    rw [h] at heq
    simp at heq
  · rename_i chunk' r2' heq
    rw [h] at heq
    simp only [Prod.mk.injEq] at heq
    obtain ⟨h1, -, h2⟩ := heq
    subst h1
    subst h2
    simp only [dite_eq_ite]

theorem readRangeOffsets_bounded (r : RangeReader) (buffer : List Nat)
    (total : Nat) :
    total ≤ buffer.length →
    ∀ o ∈ readRangeOffsets r buffer total, o ≤ buffer.length := by
  induction r, buffer, total using readRangeOffsets.induct with
  | case1 r buffer total fst e snd h =>
    intro ht o ho
    rw [readRangeOffsets_eq_some _ _ _ _ _ _ h] at ho
    simp at ho
    omega
  | case2 r buffer total chunk r2 h hc =>
    intro ht o ho
    rw [readRangeOffsets_eq_none _ _ _ _ _ h, if_pos hc] at ho
    simp at ho
    omega
  | case3 r buffer total chunk r2 h hc ih =>
    intro ht o ho
    have hle : chunk.length ≤ buffer.length - total := by
      have h2 := read_chunk_le r (buffer.length - total)
      rw [h] at h2
      exact h2
    have hblen : (writeAt buffer total chunk).length = buffer.length :=
      writeAt_length _ _ _ (by omega)
    rw [readRangeOffsets_eq_none _ _ _ _ _ h, if_neg hc] at ho
    rcases List.mem_cons.mp ho with h1 | h1
    · omega
    · have hbnd := ih (by rw [hblen]; omega) o h1
      rw [hblen] at hbnd
      exact hbnd

theorem readRangeLoop_length (r : RangeReader) (buffer : List Nat)
    (total : Nat) :
    (readRangeLoop r buffer total).2.length = buffer.length := by
  induction r, buffer, total using readRangeLoop.induct with
  | case1 r buffer total fst snd h =>
    rw [readRangeLoop_eq_eof _ _ _ _ _ h]
  | case2 r buffer total fst e snd hne h =>
    rw [readRangeLoop]
    split
    · rfl
    · rfl
    · rename_i heq
      rw [h] at heq
      simp at heq
  | case3 r buffer total chunk r2 h hc =>
    rw [readRangeLoop_eq_none _ _ _ _ _ h, if_pos hc]
  | case4 r buffer total chunk r2 h hc ih =>
    have hle : chunk.length ≤ buffer.length - total := by
      have h2 := read_chunk_le r (buffer.length - total)
      rw [h] at h2
      exact h2
    have hblen : (writeAt buffer total chunk).length = buffer.length :=
      writeAt_length _ _ _ (by omega)
    rw [readRangeLoop_eq_none _ _ _ _ _ h, if_neg hc, ih, hblen]

/-- C9: the modelled stream never delivers more bytes than the slice it is
handed; consequently every offset `totalBytes` at which the loop of
`readRange` takes the slice `buffer[totalBytes:]` stays within the buffer's
length, and the loop returns a buffer of unchanged length — it never writes
outside the caller-supplied buffer. -/
theorem C9_loop_in_bounds (r : RangeReader) (buffer : List Nat) :
    (∀ space, (r.read space).1.length ≤ space) ∧
    (∀ o ∈ readRangeOffsets r buffer 0, o ≤ buffer.length) ∧
    (readRangeLoop r buffer 0).2.length = buffer.length :=
  ⟨read_chunk_le r,
   readRangeOffsets_bounded r buffer 0 (Nat.zero_le _),
   readRangeLoop_length r buffer 0⟩

/-- C3: after a `Write` that succeeds with bloom bytes `bBloom`, index bytes
`bIndex`, payload bytes `bObject` and meta record `meta` (serialized to
`bMeta`, whose decoding round-trips), the subsequent `Bloom`, `Index` and
`BlockMeta` reads of that (tenant, block) return exactly `bBloom`, `bIndex`
and `meta`, and a full-range `Object` read (offset `0` into a buffer of the
payload's length, over a stream with positive delivery caps and no failure)
returns exactly `bObject`. -/
theorem C3_round_trip {μ : Type} (env : WriteEnv μ) (st : Store)
    (blockID tenantID : GoStr) (meta : μ)
    (bBloom bIndex bObject bMeta : List Nat) (objectFilePath : GoStr)
    (unmarshal : List Nat → Except GoStr μ) (caps : List Nat)
    (failMsg : GoStr) (buffer : List Nat)
    (hbl : env.bloomErr = none) (hix : env.indexErr = none)
    (hfe : fileExists env.stat = true) (ho : env.openRes = Except.ok bObject)
    (hcp : env.copyErr = none) (hm : env.marshal meta = Except.ok bMeta)
    (hme : env.metaErr = none) (hum : unmarshal bMeta = Except.ok meta)
    (hcaps : ∀ c ∈ caps, 0 < c) (hlen : buffer.length = bObject.length) :
    (Write env st blockID tenantID meta bBloom bIndex objectFilePath).1
        = none ∧
    Bloom none (Write env st blockID tenantID meta bBloom bIndex
        objectFilePath).2 blockID tenantID = Except.ok bBloom ∧
    Index none (Write env st blockID tenantID meta bBloom bIndex
        objectFilePath).2 blockID tenantID = Except.ok bIndex ∧
    BlockMeta unmarshal none (Write env st blockID tenantID meta bBloom bIndex
        objectFilePath).2 blockID tenantID = Except.ok meta ∧
    Object (Write env st blockID tenantID meta bBloom bIndex
        objectFilePath).2 blockID tenantID 0 caps none failMsg buffer
      = (none, bObject) := by
  have hw : Write env st blockID tenantID meta bBloom bIndex objectFilePath
      = (none,
          (metaFileName blockID tenantID, bMeta)
            :: (objectFileName blockID tenantID, bObject)
            :: (indexFileName blockID tenantID, bIndex)
            :: (bloomFileName blockID tenantID, bBloom) :: st) := by
    unfold Write writeAll
    simp [hbl, hix, hfe, ho, hcp, hm, hme]
  rw [hw]
  refine ⟨rfl, ?_, ?_, ?_, ?_⟩
  · rw [Bloom, readAll]
    simp [lookupKey, Ne.symm (bloom_ne_index blockID tenantID),
      Ne.symm (bloom_ne_object blockID tenantID),
      meta_ne_bloom blockID tenantID]
  · rw [Index, readAll]
    simp [lookupKey, Ne.symm (index_ne_object blockID tenantID),
      meta_ne_index blockID tenantID]
  · rw [BlockMeta, readAll]
    simp [lookupKey, hum]
  · rw [Object]
    simp [lookupKey, meta_ne_object blockID tenantID]
    rw [readRange]
    simp only [List.drop_zero]
    rw [hlen, List.take_length]
    have hloop := readRangeLoop_success
      { data := bObject, caps := caps, failAfter := none, failMsg := failMsg }
      buffer 0 rfl hcaps (Nat.zero_le _)
    rw [hloop]
    simp only [Nat.sub_zero]
    rw [hlen, List.take_length]
    unfold writeAt
    simp only [List.take_zero, List.nil_append, Nat.zero_add]
    rw [← hlen, List.drop_length]
    simp

/-- Environment for witnesses: every collaborator succeeds; the payload
source holds `[9, 8]` and the meta record serializes to `[7]`. -/
def envAllOk : WriteEnv Nat :=
  { bloomErr := none, indexErr := none, stat := StatResult.ok,
    openRes := Except.ok [9, 8], copyErr := none,
    marshal := fun _ => Except.ok [7], metaErr := none }

/-- Wire decoding for witnesses: inverse of `envAllOk.marshal` on the meta
record `0`. -/
def unmarshalW (b : List Nat) : Except GoStr Nat :=
  if b = [7] then Except.ok 0 else Except.error "unexpected bytes".data

/-- C3 witness: one concrete successful `Write` whose four components read
back verbatim. -/
theorem C3_round_trip_witness :
    (gcs.Write gcs.envAllOk [] "b1".data "t1".data 0 [1] [2] "p0".data).1
        = none ∧
    gcs.Bloom none (gcs.Write gcs.envAllOk [] "b1".data "t1".data 0 [1] [2]
        "p0".data).2 "b1".data "t1".data = Except.ok [1] ∧
    gcs.Index none (gcs.Write gcs.envAllOk [] "b1".data "t1".data 0 [1] [2]
        "p0".data).2 "b1".data "t1".data = Except.ok [2] ∧
    gcs.BlockMeta gcs.unmarshalW none (gcs.Write gcs.envAllOk [] "b1".data
        "t1".data 0 [1] [2] "p0".data).2 "b1".data "t1".data
      = Except.ok 0 ∧
    gcs.Object (gcs.Write gcs.envAllOk [] "b1".data "t1".data 0 [1] [2]
        "p0".data).2 "b1".data "t1".data 0 [1] none [] [0, 0]
      = (none, [9, 8]) :=
  C3_round_trip envAllOk [] "b1".data "t1".data 0 [1] [2] [9, 8] [7]
    "p0".data unmarshalW [1] [] [0, 0] rfl rfl rfl rfl rfl rfl rfl
    rfl (by decide) rfl

end gcs
